import Mathlib

/-!
Verification of the rolling-window statistics and signal/stop-sizing engine
of the three HFT agent variants (`HFT_1.py`, `HFT_2.py`,
`remove30_use_RawCalculatedVar.py`).

Modelling conventions:
* Python floats are modelled as exact rationals (`ℚ`); the algorithms are
  specified and analysed at the level of real-number arithmetic.
* The broker terminal (MetaTrader 5) is external: order submission is
  modelled by the `OrderRequest` value the code builds and hands to
  `order_send`; tick retrieval is a parameter of the loop body.
* CSV files are modelled as `Option (List Row)` — `none` when the file does
  not exist, `some rows` for an existing file with its rows.
* Wall-clock date/time strings written into CSV rows come from the external
  clock and are not part of the modelled row payloads.
-/

namespace HFT

/-- A row of a CSV file, as a list of cell strings. -/
abbrev Row := List String

/-- Appending one row to an existing CSV file (mode `'a'` in the source). -/
def appendRow (rows : List Row) (r : Row) : List Row := rows ++ [r]

/-- Arithmetic mean of a list of rationals (`sum / len`); `0` on the empty
list (division by zero yields `0` in `ℚ`, matching that the sources never
take statistics of an empty window). -/
def mean (l : List ℚ) : ℚ := l.sum / l.length

/-- Population variance, as computed by `np.var(prices_list)`: the mean of
the squared deviations from the mean (divide by N, not N − 1). -/
def variance (l : List ℚ) : ℚ := mean (l.map (fun x => (x - mean l) ^ 2))

/-- The independent variable of the regression: the integer sequence
`0 .. n−1` as rationals (`range(TICK_BUFFER_SIZE)` / `np.arange(...)` in the
sources). -/
def idxs (n : ℕ) : List ℚ :=
  (List.range n).map (fun i : ℕ => (i : ℚ))

/-- OLS slope of price against index, as computed by
`linregress(range(N), prices_list)`: with x the integer sequence
`0 .. len−1`, slope = mean((x−x̄)(y−ȳ)) / mean((x−x̄)²). -/
def slope (l : List ℚ) : ℚ :=
  let xs := idxs l.length
  let xm := mean xs
  let ym := mean l
  let ssxym := mean ((xs.zip l).map (fun q => (q.1 - xm) * (q.2 - ym)))
  let ssxm := mean (xs.map (fun x => (x - xm) ^ 2))
  ssxym / ssxm

/-- Slope threshold for bullish/bearish signals (`SLOPE_THRESHOLD = 0.0001`
in all three variants). -/
def SLOPE_THRESHOLD : ℚ := 0.0001

/-- Trend classification labels used in all three variants. -/
inductive Trend where
  | Bullish
  | Bearish
  | Neutral
deriving DecidableEq

/-- The trend classification appearing verbatim in all three variants:
`if slope_val > SLOPE_THRESHOLD: "Bullish" elif slope_val < -SLOPE_THRESHOLD:
"Bearish" else: "Neutral"`. -/
def classifyTrend (s : ℚ) : Trend :=
  if s > SLOPE_THRESHOLD then Trend.Bullish
  else if s < -SLOPE_THRESHOLD then Trend.Bearish
  else Trend.Neutral

/-- Order side (`mt5.ORDER_TYPE_BUY` / `mt5.ORDER_TYPE_SELL`). -/
inductive Side where
  | BUY
  | SELL
deriving DecidableEq

/-- The order request each variant's `place_market_order` builds and passes
to `mt5.order_send`. Venue-constant fields (`action`, `deviation`,
`type_time`, `type_filling`) and the free-text `comment` are omitted. -/
structure OrderRequest where
  symbol : String
  volume : ℚ
  side : Side
  price : ℚ
  sl : ℚ
  tp : ℚ
deriving DecidableEq

/-- One append to a `collections.deque` with `maxlen = cap`: the new element
goes to the right and, if the length would exceed the capacity, elements are
dropped from the left. -/
def dequeAppend (cap : ℕ) (buf : List ℚ) (p : ℚ) : List ℚ :=
  let b := buf ++ [p]
  if b.length ≤ cap then b else b.drop (b.length - cap)

/-- Pushing a whole list of prices into a deque, left to right. -/
def pushAll (cap : ℕ) (buf : List ℚ) (ps : List ℚ) : List ℚ :=
  ps.foldl (dequeAppend cap) buf

end HFT

namespace HFT1

/-- Symbol traded by `HFT_1.py`. -/
def SYMBOL : String := "BTCUSD"

/-- Rolling buffer capacity (`TICK_BUFFER_SIZE = 30`). -/
def TICK_BUFFER_SIZE : ℕ := 30

/-- Trading volume (`LOT_SIZE = 0.01`). -/
def LOT_SIZE : ℚ := 0.01

/-- Stop multiplier (`STDEV_MULTIPLIER = 2.0`). -/
def STDEV_MULTIPLIER : ℚ := 2.0

/-- Fallback minimum stop distance (`MIN_STOP_DEFAULT = 0.0005`). -/
def MIN_STOP_DEFAULT : ℚ := 0.0005

/-- Startup computation of the broker minimum stop distance in price units:
`broker_min_stop_price = trade_stops_level * point`, replaced by
`MIN_STOP_DEFAULT` when that product is `<= 0`. -/
def broker_min_stop_price (trade_stops_level point : ℚ) : ℚ :=
  let p := trade_stops_level * point
  if p ≤ 0 then MIN_STOP_DEFAULT else p

/-- The stop distance computed in `main` before ordering:
`default_stop_dist = STDEV_MULTIPLIER * std_val;
effective_stop = max(default_stop_dist, broker_min_stop_price)`. -/
def effective_stop (std_val broker_min : ℚ) : ℚ :=
  max (STDEV_MULTIPLIER * std_val) broker_min

/-- Function `place_market_order` of `HFT_1.py`: for BUY, `tp = price + stop_dist`
and `sl = price - stop_dist`; for SELL, `tp = price - stop_dist` and
`sl = price + stop_dist`. -/
def place_market_order (symbol : String) (volume : ℚ) (order_type : HFT.Side)
    (price stop_dist : ℚ) : HFT.OrderRequest :=
  match order_type with
  | HFT.Side.BUY =>
      { symbol := symbol, volume := volume, side := HFT.Side.BUY,
        price := price, sl := price - stop_dist, tp := price + stop_dist }
  | HFT.Side.SELL =>
      { symbol := symbol, volume := volume, side := HFT.Side.SELL,
        price := price, sl := price + stop_dist, tp := price - stop_dist }

/-- Header row of `tick_data.csv` in `HFT_1.py`. -/
def tick_header : HFT.Row :=
  ["date", "time", "symbol", "price", "variance", "slope", "trend"]

/-- Header row of `order_data.csv` (identical in all three variants). -/
def order_header : HFT.Row :=
  ["Ticket", "Order", "Time", "Symbol", "Type", "Volume", "Price", "Profit", "Comment"]

/-- Function `prepare_tick_csv` of `HFT_1.py`: opens the file with mode `'w'`
unconditionally, so whatever was on disk is discarded and the file ends up
holding exactly the header row. -/
def prepare_tick_csv (_fs : Option (List HFT.Row)) : List HFT.Row :=
  [tick_header]

/-- Function `prepare_order_csv` of `HFT_1.py`: also opens with mode `'w'`
unconditionally. -/
def prepare_order_csv (_fs : Option (List HFT.Row)) : List HFT.Row :=
  [order_header]

end HFT1

namespace HFT2

/-- Symbol traded by `HFT_2.py`. -/
def SYMBOL : String := "BTCUSD"

/-- Rolling buffer capacity (`TICK_BUFFER_SIZE = 30`). -/
def TICK_BUFFER_SIZE : ℕ := 30

/-- Trading volume (`LOT_SIZE = 0.01`). -/
def LOT_SIZE : ℚ := 0.01

/-- Variance floor (`VARIANCE_FLOOR = 30.0`). -/
def VARIANCE_FLOOR : ℚ := 30.0

/-- The floored variance used inside `place_market_order` of `HFT_2.py`:
`effective_variance = variance if variance >= VARIANCE_FLOOR else
VARIANCE_FLOOR`. -/
def effective_variance (v : ℚ) : ℚ :=
  if v ≥ VARIANCE_FLOOR then v else VARIANCE_FLOOR

/-- Function `place_market_order` of `HFT_2.py`: applies the variance floor, then for
BUY `tp = price + effective_variance`, `sl = price - effective_variance`;
for SELL the signs invert. -/
def place_market_order (symbol : String) (volume : ℚ) (order_type : HFT.Side)
    (price v : ℚ) : HFT.OrderRequest :=
  let ev := effective_variance v
  match order_type with
  | HFT.Side.BUY =>
      { symbol := symbol, volume := volume, side := HFT.Side.BUY,
        price := price, sl := price - ev, tp := price + ev }
  | HFT.Side.SELL =>
      { symbol := symbol, volume := volume, side := HFT.Side.SELL,
        price := price, sl := price + ev, tp := price - ev }

/-- A fetched tick: MT5 exposes `time`, `last`, `bid`, `ask`. Times are in
seconds (rationals, so the microsecond increment is representable). -/
structure Tick where
  time : ℚ
  last : ℚ
  bid : ℚ
  ask : ℚ
deriving DecidableEq

/-- Price extraction from a tick: `price = tick["last"]; if price <= 0:
price = (tick["bid"] + tick["ask"]) / 2`. -/
def tickPrice (t : Tick) : ℚ :=
  if t.last ≤ 0 then (t.bid + t.ask) / 2 else t.last

/-- A row of `raw_tick_data.csv` (date/time strings from the external clock
omitted). -/
structure RawRow where
  symbol : String
  price : ℚ
deriving DecidableEq

/-- A row of the aggregated `tick_data.csv` (date/time strings omitted). -/
structure AggRow where
  symbol : String
  prices : List ℚ
  variance : ℚ
  slope : ℚ
  trend : HFT.Trend
deriving DecidableEq

/-- The mutable process state of `HFT_2.py` that the loop body reads or
writes: the high-water fetch timestamp, the rolling buffer, the retained
`previous_slope`, and the two CSV logs the loop appends to. -/
structure State where
  latest_tick_time : ℚ
  tick_buffer : List ℚ
  previous_slope : ℚ
  raw_rows : List RawRow
  agg_rows : List AggRow
deriving DecidableEq

/-- Processing of one fetched tick inside the `for tick in ticks` loop:
advance the high-water mark to tick time + 1 microsecond when the tick is
newer, log the tick to `raw_tick_data.csv`, and push its price into the
rolling buffer. -/
def processTick (s : State) (t : Tick) : State :=
  { s with
    latest_tick_time :=
      if t.time > s.latest_tick_time then t.time + 1 / 1000000
      else s.latest_tick_time,
    raw_rows := s.raw_rows ++ [{ symbol := SYMBOL, price := tickPrice t }],
    tick_buffer := HFT.dequeAppend TICK_BUFFER_SIZE s.tick_buffer (tickPrice t) }

/-- The observable outcome of one scheduler iteration: the new state, the
trend decision (`none` when the buffer was not full, so no decision was
evaluated), and the order request submitted to `order_send` (`none` when no
order was submitted). -/
structure IterResult where
  state : State
  trend : Option HFT.Trend
  request : Option HFT.OrderRequest
deriving DecidableEq

/-- One iteration of the `for order_num in range(...)` loop of `HFT_2.py`,
with the fetched ticks as input: process each tick in arrival order, then —
exactly when the buffer is full — compute variance, slope and trend, append
the aggregated log row, store `previous_slope`, and submit a BUY/SELL order
when the trend is Bullish/Bearish. -/
def iteration (s : State) (ticks : List Tick) : IterResult :=
  let s1 := ticks.foldl processTick s
  if s1.tick_buffer.length = TICK_BUFFER_SIZE then
    let prices := s1.tick_buffer
    let variance_val := HFT.variance prices
    let slope_val := HFT.slope prices
    let trend_decision := HFT.classifyTrend slope_val
    let s2 := { s1 with
      agg_rows := s1.agg_rows ++
        [AggRow.mk SYMBOL prices variance_val slope_val trend_decision] }
    let order_signal : Option HFT.Side :=
      match trend_decision with
      | HFT.Trend.Bullish => some HFT.Side.BUY
      | HFT.Trend.Bearish => some HFT.Side.SELL
      | HFT.Trend.Neutral => none
    let s3 := { s2 with previous_slope := slope_val }
    match order_signal with
    | none => IterResult.mk s3 (some trend_decision) none
    | some side =>
        let current_price := prices.getLastD 0
        IterResult.mk s3 (some trend_decision)
          (some (place_market_order SYMBOL LOT_SIZE side current_price variance_val))
  else
    IterResult.mk s1 none none

/-- Header row of `raw_tick_data.csv`. -/
def raw_header : HFT.Row := ["date", "time", "symbol", "price"]

/-- Header row of the aggregated `tick_data.csv` in `HFT_2.py`. -/
def agg_header : HFT.Row :=
  ["date", "time", "symbol", "prices", "variance", "slope", "trend"]

/-- Function `prepare_raw_tick_csv` of `HFT_2.py`: writes the header only when the
file does not exist (`if not os.path.exists(...)`). -/
def prepare_raw_tick_csv (fs : Option (List HFT.Row)) : List HFT.Row :=
  match fs with
  | none => [raw_header]
  | some rows => rows

/-- Function `prepare_tick_csv` of `HFT_2.py`: header only when the file is absent. -/
def prepare_tick_csv (fs : Option (List HFT.Row)) : List HFT.Row :=
  match fs with
  | none => [agg_header]
  | some rows => rows

/-- Function `prepare_order_csv` of `HFT_2.py`: header only when the file is absent. -/
def prepare_order_csv (fs : Option (List HFT.Row)) : List HFT.Row :=
  match fs with
  | none => [HFT1.order_header]
  | some rows => rows

end HFT2

namespace R30

/-- Symbol traded by `remove30_use_RawCalculatedVar.py`. -/
def SYMBOL : String := "XAUUSD.sml"

/-- Rolling buffer capacity of this variant (`TICK_BUFFER_SIZE = 500`). -/
def TICK_BUFFER_SIZE : ℕ := 500

/-- Trading volume (`LOT_SIZE = 0.01`). -/
def LOT_SIZE : ℚ := 0.01

/-- Function `place_market_order` of `remove30_use_RawCalculatedVar.py`: the raw
variance is used directly as the stop distance, with no floor. For BUY
`tp = price + variance`, `sl = price - variance`; for SELL the signs
invert. -/
def place_market_order (symbol : String) (volume : ℚ) (order_type : HFT.Side)
    (price v : ℚ) : HFT.OrderRequest :=
  match order_type with
  | HFT.Side.BUY =>
      { symbol := symbol, volume := volume, side := HFT.Side.BUY,
        price := price, sl := price - v, tp := price + v }
  | HFT.Side.SELL =>
      { symbol := symbol, volume := volume, side := HFT.Side.SELL,
        price := price, sl := price + v, tp := price - v }

/-- Function `prepare_raw_tick_csv` of this variant: header only when the file is
absent. -/
def prepare_raw_tick_csv (fs : Option (List HFT.Row)) : List HFT.Row :=
  match fs with
  | none => [HFT2.raw_header]
  | some rows => rows

/-- Function `prepare_tick_csv` of this variant: header only when the file is
absent. -/
def prepare_tick_csv (fs : Option (List HFT.Row)) : List HFT.Row :=
  match fs with
  | none => [HFT2.agg_header]
  | some rows => rows

/-- Function `prepare_order_csv` of this variant: header only when the file is
absent. -/
def prepare_order_csv (fs : Option (List HFT.Row)) : List HFT.Row :=
  match fs with
  | none => [HFT1.order_header]
  | some rows => rows

end R30

namespace HFT

/-- The mean of a nonempty constant list is that constant. -/
lemma mean_replicate (n : ℕ) (c : ℚ) (hn : n ≠ 0) :
    mean (List.replicate n c) = c := by
  unfold mean
  rw [List.sum_replicate, List.length_replicate, nsmul_eq_mul]
  exact mul_div_cancel_left₀ c (Nat.cast_ne_zero.mpr hn)

/-- The population variance of a constant window is zero. -/
lemma variance_replicate (n : ℕ) (c : ℚ) :
    variance (List.replicate n c) = 0 := by
  rcases Nat.eq_zero_or_pos n with h | h
  · subst h; simp [variance, mean]
  · have hm : mean (List.replicate n c) = c := mean_replicate n c (Nat.pos_iff_ne_zero.mp h)
    simp only [variance, hm, List.map_replicate, sub_self]
    norm_num
    rw [mean, List.sum_replicate, List.length_replicate]
    simp

/-- The OLS slope of a constant window is zero. -/
lemma slope_replicate (n : ℕ) (c : ℚ) :
    slope (List.replicate n c) = 0 := by
  simp only [slope]
  have hsum :
      (((idxs (List.replicate n c).length).zip (List.replicate n c)).map
        (fun q =>
          (q.1 - mean (idxs (List.replicate n c).length)) *
            (q.2 - mean (List.replicate n c)))).sum = 0 := by
    apply List.sum_eq_zero
    intro x hx
    obtain ⟨q, hq, rfl⟩ := List.mem_map.mp hx
    have h2 : q.2 ∈ List.replicate n c := (List.of_mem_zip hq).2
    have hc : q.2 = c := List.eq_of_mem_replicate h2
    have hn : n ≠ 0 := by
      intro h0
      subst h0
      simp at h2
    rw [hc, mean_replicate n c hn, sub_self, mul_zero]
  rw [mean, hsum, zero_div, zero_div]

/-- Zipping a list with itself pairs each element with itself. -/
lemma zip_self_eq_map (l : List ℚ) : l.zip l = l.map (fun x => (x, x)) := by
  induction l with
  | nil => rfl
  | cons a t ih => simp [List.zip_cons_cons, ih]

/-- A list of nonnegative rationals containing a positive element has a
positive mean. -/
lemma mean_pos_of_mem (l : List ℚ) (h0 : ∀ x ∈ l, 0 ≤ x) (a : ℚ)
    (ha : a ∈ l) (hpos : 0 < a) : 0 < mean l := by
  unfold mean
  have hsum : a ≤ l.sum := List.single_le_sum h0 a ha
  have hlen : 0 < l.length := List.length_pos.mpr (List.ne_nil_of_mem ha)
  exact div_pos (lt_of_lt_of_le hpos hsum) (by exact_mod_cast hlen)

/-- The length of the index list is its argument. -/
lemma idxs_length (n : ℕ) : (idxs n).length = n := by
  rw [idxs, List.length_map, List.length_range]

/-- The OLS slope of the strictly increasing unit-step window
`[0, 1, …, n−1]` is exactly 1 (for n ≥ 2). -/
lemma slope_range_cast (n : ℕ) (hn : 2 ≤ n) :
    slope (idxs n) = 1 := by
  set l := idxs n with hl
  have hlen : l.length = n := by rw [hl, idxs_length]
  simp only [slope, hlen]
  rw [← hl, zip_self_eq_map, List.map_map]
  have hcomp :
      ((fun q : ℚ × ℚ => (q.1 - mean l) * (q.2 - mean l)) ∘ fun x => (x, x))
        = fun x => (x - mean l) ^ 2 := by
    funext x
    simp [Function.comp]
    ring
  rw [hcomp]
  apply div_self
  have h0 : ∀ x ∈ l.map (fun x => (x - mean l) ^ 2), 0 ≤ x := by
    intro x hx
    obtain ⟨y, _, rfl⟩ := List.mem_map.mp hx
    positivity
  have h0m : (0 : ℚ) ∈ l := by
    rw [hl, idxs]
    refine List.mem_map.mpr ⟨0, ?_, ?_⟩
    · exact List.mem_range.mpr (by omega)
    · norm_num
  have h1m : (1 : ℚ) ∈ l := by
    rw [hl, idxs]
    refine List.mem_map.mpr ⟨1, ?_, ?_⟩
    · exact List.mem_range.mpr (by omega)
    · norm_num
  by_cases hc : mean l = 0
  · have hmem : ((1 : ℚ) - mean l) ^ 2 ∈ l.map (fun x => (x - mean l) ^ 2) :=
      List.mem_map.mpr ⟨1, h1m, rfl⟩
    have hpos : 0 < ((1 : ℚ) - mean l) ^ 2 := by rw [hc]; norm_num
    exact ne_of_gt (mean_pos_of_mem _ h0 _ hmem hpos)
  · have hmem : ((0 : ℚ) - mean l) ^ 2 ∈ l.map (fun x => (x - mean l) ^ 2) :=
      List.mem_map.mpr ⟨0, h0m, rfl⟩
    have hne : (0 : ℚ) - mean l ≠ 0 := by
      rw [zero_sub, neg_ne_zero]
      exact hc
    have hpos : 0 < ((0 : ℚ) - mean l) ^ 2 := by positivity
    exact ne_of_gt (mean_pos_of_mem _ h0 _ hmem hpos)

end HFT

namespace HFT

/-- A deque append never leaves more than `cap` elements in the buffer. -/
lemma dequeAppend_length_le (cap : ℕ) (buf : List ℚ) (p : ℚ) :
    (dequeAppend cap buf p).length ≤ cap := by
  simp only [dequeAppend]
  split_ifs with h
  · exact h
  · rw [List.length_drop]
    omega

/-- Below capacity, a deque append is a plain append on the right. -/
lemma dequeAppend_of_lt (cap : ℕ) (buf : List ℚ) (p : ℚ)
    (h : buf.length + 1 ≤ cap) : dequeAppend cap buf p = buf ++ [p] := by
  simp only [dequeAppend]
  rw [if_pos]
  simp only [List.length_append, List.length_singleton]
  omega

/-- Pushing at most `cap` prices into an empty-enough deque keeps all of
them in arrival order. -/
lemma pushAll_fill (cap : ℕ) (ps : List ℚ) : ∀ buf : List ℚ,
    buf.length + ps.length ≤ cap → pushAll cap buf ps = buf ++ ps := by
  induction ps with
  | nil => intro buf _; simp [pushAll]
  | cons q qs ih =>
      intro buf h
      simp only [List.length_cons] at h
      have hstep : dequeAppend cap buf q = buf ++ [q] :=
        dequeAppend_of_lt cap buf q (by omega)
      show pushAll cap (dequeAppend cap buf q) qs = buf ++ q :: qs
      rw [hstep, ih (buf ++ [q])
        (by simp only [List.length_append, List.length_singleton]; omega)]
      simp

end HFT

namespace HFT2

/-- Processing a tick neither reads nor writes `previous_slope`: it commutes
with overwriting that field. -/
lemma processTick_set_ps (s : State) (a : ℚ) (t : Tick) :
    processTick { s with previous_slope := a } t
      = { processTick s t with previous_slope := a } := rfl

/-- Folding a tick batch commutes with overwriting `previous_slope`. -/
lemma foldl_processTick_set_ps (ticks : List Tick) (s : State) (a : ℚ) :
    ticks.foldl processTick { s with previous_slope := a }
      = { ticks.foldl processTick s with previous_slope := a } := by
  induction ticks generalizing s with
  | nil => rfl
  | cons t ts ih => rw [List.foldl_cons, List.foldl_cons, processTick_set_ps, ih]

end HFT2

/-- C1: in every variant, the submitted order request applies the stop
distance symmetrically around the entry price: for Buy,
`take_profit = p + d` and `stop_loss = p − d`; for Sell, `take_profit = p − d`
and `stop_loss = p + d`. In `HFT_1.py` the distance is the effective stop
passed in; in `HFT_2.py` it is the floored variance `effective_variance v`;
in `remove30_use_RawCalculatedVar.py` it is the raw variance `v`. -/
theorem C1_stop_symmetry (sym : String) (vol p d v : ℚ) :
    ((HFT1.place_market_order sym vol HFT.Side.BUY p d).tp = p + d
      ∧ (HFT1.place_market_order sym vol HFT.Side.BUY p d).sl = p - d
      ∧ (HFT1.place_market_order sym vol HFT.Side.SELL p d).tp = p - d
      ∧ (HFT1.place_market_order sym vol HFT.Side.SELL p d).sl = p + d)
    ∧ ((HFT2.place_market_order sym vol HFT.Side.BUY p v).tp
          = p + HFT2.effective_variance v
      ∧ (HFT2.place_market_order sym vol HFT.Side.BUY p v).sl
          = p - HFT2.effective_variance v
      ∧ (HFT2.place_market_order sym vol HFT.Side.SELL p v).tp
          = p - HFT2.effective_variance v
      ∧ (HFT2.place_market_order sym vol HFT.Side.SELL p v).sl
          = p + HFT2.effective_variance v)
    ∧ ((R30.place_market_order sym vol HFT.Side.BUY p v).tp = p + v
      ∧ (R30.place_market_order sym vol HFT.Side.BUY p v).sl = p - v
      ∧ (R30.place_market_order sym vol HFT.Side.SELL p v).tp = p - v
      ∧ (R30.place_market_order sym vol HFT.Side.SELL p v).sl = p + v) :=
  ⟨⟨rfl, rfl, rfl, rfl⟩, ⟨rfl, rfl, rfl, rfl⟩, ⟨rfl, rfl, rfl, rfl⟩⟩

/-- C2: trend classification is the pure function of the slope and the fixed
threshold 0.0001 used in every variant: strictly above the threshold is
Bullish, strictly below its negation is Bearish, everything else — both
boundary values included — is Neutral. -/
theorem C2_trend_classification (s : ℚ) :
    (HFT.classifyTrend s = HFT.Trend.Bullish ↔ HFT.SLOPE_THRESHOLD < s)
    ∧ (HFT.classifyTrend s = HFT.Trend.Bearish ↔ s < -HFT.SLOPE_THRESHOLD)
    ∧ (HFT.classifyTrend s = HFT.Trend.Neutral
        ↔ -HFT.SLOPE_THRESHOLD ≤ s ∧ s ≤ HFT.SLOPE_THRESHOLD)
    ∧ HFT.classifyTrend HFT.SLOPE_THRESHOLD = HFT.Trend.Neutral
    ∧ HFT.classifyTrend (-HFT.SLOPE_THRESHOLD) = HFT.Trend.Neutral := by
  have hθ : (0 : ℚ) < HFT.SLOPE_THRESHOLD := by norm_num [HFT.SLOPE_THRESHOLD]
  unfold HFT.classifyTrend
  refine ⟨?_, ?_, ?_, ?_, ?_⟩
  · split_ifs with h1 h2 <;> simp <;> linarith
  · split_ifs with h1 h2 <;> simp <;> linarith
  · split_ifs with h1 h2
    · simp
      intro _
      exact h1
    · simp
      intro _
      linarith
    · simp
      exact ⟨by linarith, by linarith⟩
  · split_ifs with h1 h2 <;> first | rfl | linarith
  · split_ifs with h1 h2 <;> first | rfl | linarith

/-- C2 witness: the characterization applied at the concrete slope 1. -/
theorem C2_trend_classification_witness :
    (HFT.classifyTrend 1 = HFT.Trend.Bullish ↔ HFT.SLOPE_THRESHOLD < 1)
    ∧ (HFT.classifyTrend 1 = HFT.Trend.Bearish ↔ (1 : ℚ) < -HFT.SLOPE_THRESHOLD)
    ∧ (HFT.classifyTrend 1 = HFT.Trend.Neutral
        ↔ -HFT.SLOPE_THRESHOLD ≤ (1 : ℚ) ∧ (1 : ℚ) ≤ HFT.SLOPE_THRESHOLD)
    ∧ HFT.classifyTrend HFT.SLOPE_THRESHOLD = HFT.Trend.Neutral
    ∧ HFT.classifyTrend (-HFT.SLOPE_THRESHOLD) = HFT.Trend.Neutral :=
  C2_trend_classification 1

/-- C3: in the Policy A variant (`HFT_1.py`), with `sd` the standard
deviation of the full window (characterized by `sd ≥ 0` and
`sd * sd = variance`), the effective stop distance equals
`max(2 * sd, broker_min_stop)`; the broker minimum is the reported
`trade_stops_level * point`, replaced by the default 0.0005 when that value
is ≤ 0; and the distance is always at least the broker minimum. -/
theorem C3_policy_A_effective_stop (w : List ℚ) (lvl pt sd : ℚ)
    (hw : w.length = 30) (hsd : 0 ≤ sd) (hsq : sd * sd = HFT.variance w) :
    HFT1.effective_stop sd (HFT1.broker_min_stop_price lvl pt)
        = max (2 * sd) (HFT1.broker_min_stop_price lvl pt)
    ∧ (lvl * pt ≤ 0 → HFT1.broker_min_stop_price lvl pt = HFT1.MIN_STOP_DEFAULT)
    ∧ (0 < lvl * pt → HFT1.broker_min_stop_price lvl pt = lvl * pt)
    ∧ HFT1.MIN_STOP_DEFAULT = 0.0005
    ∧ HFT1.broker_min_stop_price lvl pt
        ≤ HFT1.effective_stop sd (HFT1.broker_min_stop_price lvl pt) := by
  refine ⟨?_, ?_, ?_, rfl, ?_⟩
  · norm_num [HFT1.effective_stop, HFT1.STDEV_MULTIPLIER]
  · intro h
    simp only [HFT1.broker_min_stop_price]
    rw [if_pos h]
  · intro h
    simp only [HFT1.broker_min_stop_price]
    rw [if_neg (not_le.mpr h)]
  · exact le_max_right _ _

/-- C3 witness: the flat window of thirty 5s, whose variance is 0, with
standard deviation 0 and a broker that reports no constraint. -/
theorem C3_policy_A_effective_stop_witness :
    (List.replicate 30 (5 : ℚ)).length = 30
    ∧ (0 : ℚ) ≤ 0
    ∧ (0 : ℚ) * 0 = HFT.variance (List.replicate 30 (5 : ℚ))
    ∧ (HFT1.effective_stop 0 (HFT1.broker_min_stop_price 0 0)
          = max (2 * 0) (HFT1.broker_min_stop_price 0 0)
      ∧ ((0 : ℚ) * 0 ≤ 0 → HFT1.broker_min_stop_price 0 0 = HFT1.MIN_STOP_DEFAULT)
      ∧ (0 < (0 : ℚ) * 0 → HFT1.broker_min_stop_price 0 0 = 0 * 0)
      ∧ HFT1.MIN_STOP_DEFAULT = 0.0005
      ∧ HFT1.broker_min_stop_price 0 0
          ≤ HFT1.effective_stop 0 (HFT1.broker_min_stop_price 0 0)) :=
  ⟨by simp, le_refl 0, by rw [HFT.variance_replicate]; ring,
    C3_policy_A_effective_stop (List.replicate 30 5) 0 0 0 (by simp) le_rfl
      (by rw [HFT.variance_replicate]; ring)⟩

/-- C4: in the Policy B variant (`HFT_2.py`), the stop distance applied to
every order is `max(variance, 30.0)` where `variance` is the raw population
variance of the window, so the distance is always at least the floor 30. -/
theorem C4_policy_B_variance_floor (w : List ℚ) (sym : String) (vol p : ℚ) :
    HFT2.effective_variance (HFT.variance w)
        = max (HFT.variance w) HFT2.VARIANCE_FLOOR
    ∧ HFT2.VARIANCE_FLOOR ≤ HFT2.effective_variance (HFT.variance w)
    ∧ HFT2.VARIANCE_FLOOR = 30
    ∧ (HFT2.place_market_order sym vol HFT.Side.BUY p (HFT.variance w)).tp
        = p + max (HFT.variance w) HFT2.VARIANCE_FLOOR
    ∧ (HFT2.place_market_order sym vol HFT.Side.BUY p (HFT.variance w)).sl
        = p - max (HFT.variance w) HFT2.VARIANCE_FLOOR
    ∧ (HFT2.place_market_order sym vol HFT.Side.SELL p (HFT.variance w)).tp
        = p - max (HFT.variance w) HFT2.VARIANCE_FLOOR
    ∧ (HFT2.place_market_order sym vol HFT.Side.SELL p (HFT.variance w)).sl
        = p + max (HFT.variance w) HFT2.VARIANCE_FLOOR := by
  have hmax : ∀ v : ℚ, HFT2.effective_variance v = max v HFT2.VARIANCE_FLOOR := by
    intro v
    unfold HFT2.effective_variance
    split_ifs with h
    · exact (max_eq_left h).symm
    · exact (max_eq_right (le_of_lt (not_le.mp h))).symm
  refine ⟨hmax _, ?_, by norm_num [HFT2.VARIANCE_FLOOR], ?_, ?_, ?_, ?_⟩
  · rw [hmax]
    exact le_max_right _ _
  all_goals
    simp only [HFT2.place_market_order, hmax]

/-- C5: in the Policy C variant (`remove30_use_RawCalculatedVar.py`), the
raw window variance is used as the stop distance with no floor or clamp,
and a flat window (variance 0) yields an order with
`stop_loss = take_profit = entry_price`, built without rejection or
special-casing. -/
theorem C5_policy_C_raw_variance (sym : String) (vol p v c : ℚ) (n : ℕ)
    (hn : n ≠ 0) :
    (R30.place_market_order sym vol HFT.Side.BUY p v).tp = p + v
    ∧ (R30.place_market_order sym vol HFT.Side.BUY p v).sl = p - v
    ∧ (R30.place_market_order sym vol HFT.Side.SELL p v).tp = p - v
    ∧ (R30.place_market_order sym vol HFT.Side.SELL p v).sl = p + v
    ∧ HFT.variance (List.replicate n c) = 0
    ∧ (R30.place_market_order sym vol HFT.Side.BUY p
        (HFT.variance (List.replicate n c))).sl = p
    ∧ (R30.place_market_order sym vol HFT.Side.BUY p
        (HFT.variance (List.replicate n c))).tp = p
    ∧ (R30.place_market_order sym vol HFT.Side.BUY p
        (HFT.variance (List.replicate n c))).price = p := by
  have hv : HFT.variance (List.replicate n c) = 0 := HFT.variance_replicate n c
  refine ⟨rfl, rfl, rfl, rfl, hv, ?_, ?_, rfl⟩
  · simp [R30.place_market_order, hv]
  · simp [R30.place_market_order, hv]

/-- C5 witness: the Policy C claims applied at the flat 500-price window of
constant price 50, entry price 100. -/
theorem C5_policy_C_raw_variance_witness :
    (500 : ℕ) ≠ 0
    ∧ ((R30.place_market_order "XAUUSD.sml" 0.01 HFT.Side.BUY 100 2).tp = 100 + 2
      ∧ (R30.place_market_order "XAUUSD.sml" 0.01 HFT.Side.BUY 100 2).sl = 100 - 2
      ∧ (R30.place_market_order "XAUUSD.sml" 0.01 HFT.Side.SELL 100 2).tp = 100 - 2
      ∧ (R30.place_market_order "XAUUSD.sml" 0.01 HFT.Side.SELL 100 2).sl = 100 + 2
      ∧ HFT.variance (List.replicate 500 (50 : ℚ)) = 0
      ∧ (R30.place_market_order "XAUUSD.sml" 0.01 HFT.Side.BUY 100
          (HFT.variance (List.replicate 500 (50 : ℚ)))).sl = 100
      ∧ (R30.place_market_order "XAUUSD.sml" 0.01 HFT.Side.BUY 100
          (HFT.variance (List.replicate 500 (50 : ℚ)))).tp = 100
      ∧ (R30.place_market_order "XAUUSD.sml" 0.01 HFT.Side.BUY 100
          (HFT.variance (List.replicate 500 (50 : ℚ)))).price = 100) :=
  ⟨by norm_num, C5_policy_C_raw_variance "XAUUSD.sml" 0.01 100 2 50 500 (by norm_num)⟩

/-- C6: the price window (a deque with `maxlen = N`) keeps at most N
elements under every push, stores prices in arrival order, and evicts
strictly FIFO: after pushing N+1 distinct prices into an empty capacity-N
window, the first-pushed price is absent and the window holds exactly the N
most recent prices in arrival order. -/
theorem C6_window_fifo (N : ℕ) (ps : List ℚ) (p0 : ℚ)
    (hlen : ps.length = N + 1) (hnd : ps.Nodup) (h0 : ps.head? = some p0) :
    (∀ (buf : List ℚ) (q : ℚ), (HFT.dequeAppend N buf q).length ≤ N)
    ∧ (∀ qs : List ℚ, qs.length ≤ N → HFT.pushAll N [] qs = qs)
    ∧ HFT.pushAll N [] ps = ps.drop 1
    ∧ p0 ∉ HFT.pushAll N [] ps := by
  have hfill : ∀ qs : List ℚ, qs.length ≤ N → HFT.pushAll N [] qs = qs := by
    intro qs hqs
    have := HFT.pushAll_fill N qs []
    simp only [List.length_nil, Nat.zero_add, List.nil_append] at this
    exact this hqs
  have hmain : HFT.pushAll N [] ps = ps.drop 1 := by
    have htl : (ps.drop N).length = 1 := by
      rw [List.length_drop, hlen]
      omega
    obtain ⟨x, hx⟩ := List.length_eq_one.mp htl
    have hsplit : ps.take N ++ [x] = ps := by
      rw [← hx]
      exact List.take_append_drop N ps
    have htk : (ps.take N).length = N := by
      rw [List.length_take, hlen]
      omega
    calc HFT.pushAll N [] ps
        = HFT.pushAll N [] (ps.take N ++ [x]) := by rw [hsplit]
      _ = HFT.dequeAppend N (HFT.pushAll N [] (ps.take N)) x := by
          simp [HFT.pushAll, List.foldl_append]
      _ = HFT.dequeAppend N (ps.take N) x := by
          rw [hfill (ps.take N) (le_of_eq htk)]
      _ = ps.drop 1 := by
          simp only [HFT.dequeAppend]
          rw [if_neg, hsplit]
          · congr 1
            omega
          · rw [hsplit, hlen]
            omega
  refine ⟨fun buf q => HFT.dequeAppend_length_le N buf q, hfill, hmain, ?_⟩
  rw [hmain]
  cases ps with
  | nil => simp at hlen
  | cons a t =>
      have ha : a = p0 := by
        simpa using h0
      subst ha
      simp only [List.drop_succ_cons, List.drop_zero]
      exact (List.nodup_cons.mp hnd).1

/-- C6 witness: pushing the four distinct prices 1,2,3,4 into an empty
capacity-3 window leaves [2,3,4]; the first price 1 is evicted. -/
theorem C6_window_fifo_witness :
    ([1, 2, 3, 4] : List ℚ).length = 3 + 1
    ∧ ([1, 2, 3, 4] : List ℚ).Nodup
    ∧ ([1, 2, 3, 4] : List ℚ).head? = some 1
    ∧ ((∀ (buf : List ℚ) (q : ℚ), (HFT.dequeAppend 3 buf q).length ≤ 3)
      ∧ (∀ qs : List ℚ, qs.length ≤ 3 → HFT.pushAll 3 [] qs = qs)
      ∧ HFT.pushAll 3 [] [1, 2, 3, 4] = ([1, 2, 3, 4] : List ℚ).drop 1
      ∧ (1 : ℚ) ∉ HFT.pushAll 3 [] [1, 2, 3, 4]) :=
  ⟨by simp, by norm_num, rfl,
    C6_window_fifo 3 [1, 2, 3, 4] 1 (by simp) (by norm_num) rfl⟩

/-- C7 counterexample: an iteration of `HFT_2.py` that fetches zero ticks
but whose buffer is already full (30 strictly increasing prices, slope 1)
still evaluates a trading decision and still submits an order, contradicting
the claim that a zero-tick fetch proceeds directly to sleeping. -/
theorem C7_counterexample :
    (HFT2.iteration (HFT2.State.mk 0 (HFT.idxs 30) 0 [] []) []).trend.isSome = true
    ∧ (HFT2.iteration (HFT2.State.mk 0 (HFT.idxs 30) 0 [] []) []).request.isSome = true := by
  have hs : HFT.slope (HFT.idxs 30) = 1 := HFT.slope_range_cast 30 (by norm_num)
  have hb : HFT.classifyTrend (1 : ℚ) = HFT.Trend.Bullish := by
    unfold HFT.classifyTrend
    rw [if_pos (by norm_num [HFT.SLOPE_THRESHOLD])]
  have hlen : (HFT.idxs 30).length = HFT2.TICK_BUFFER_SIZE := by
    rw [HFT.idxs_length]
    rfl
  constructor <;> simp [HFT2.iteration, hlen, hs, hb]

/-- C7 amended: in every iteration in which the tick fetch returns zero
ticks, the window and the raw tick log are unchanged; the trading decision
is still evaluated exactly when the window is full (decisions are
cadence-gated, not tick-gated); only when the window is not full does the
iteration change nothing and submit nothing. -/
theorem C7_zero_tick_iteration (s : HFT2.State) :
    (HFT2.iteration s []).state.tick_buffer = s.tick_buffer
    ∧ (HFT2.iteration s []).state.raw_rows = s.raw_rows
    ∧ ((HFT2.iteration s []).trend.isSome
        ↔ s.tick_buffer.length = HFT2.TICK_BUFFER_SIZE)
    ∧ (s.tick_buffer.length ≠ HFT2.TICK_BUFFER_SIZE →
        (HFT2.iteration s []).request = none ∧ (HFT2.iteration s []).state = s) := by
  by_cases h : s.tick_buffer.length = HFT2.TICK_BUFFER_SIZE
  · refine ⟨?_, ?_, ?_, fun hc => absurd h hc⟩ <;>
      cases hc : HFT.classifyTrend (HFT.slope s.tick_buffer) <;>
        simp [HFT2.iteration, h, hc]
  · refine ⟨?_, ?_, ?_, ?_⟩ <;> simp [HFT2.iteration, h]

/-- C7 amended witness: with an empty buffer and zero fetched ticks, the
iteration changes nothing and submits nothing. -/
theorem C7_zero_tick_iteration_witness :
    (HFT2.State.mk 0 [] 0 [] []).tick_buffer.length ≠ HFT2.TICK_BUFFER_SIZE
    ∧ ((HFT2.iteration (HFT2.State.mk 0 [] 0 [] []) []).request = none
      ∧ (HFT2.iteration (HFT2.State.mk 0 [] 0 [] []) []).state
          = HFT2.State.mk 0 [] 0 [] []) :=
  ⟨by norm_num [HFT2.TICK_BUFFER_SIZE],
    (C7_zero_tick_iteration (HFT2.State.mk 0 [] 0 [] [])).2.2.2
      (by norm_num [HFT2.TICK_BUFFER_SIZE])⟩

/-- C8: when the full window holds a single constant price, the population
variance and the OLS slope are 0, the trend is Neutral, no order is
submitted that period, and the aggregated log row is still written with
trend Neutral. -/
theorem C8_flat_window (s : HFT2.State) (p : ℚ)
    (hbuf : s.tick_buffer = List.replicate 30 p) :
    HFT.variance s.tick_buffer = 0
    ∧ HFT.slope s.tick_buffer = 0
    ∧ (HFT2.iteration s []).trend = some HFT.Trend.Neutral
    ∧ (HFT2.iteration s []).request = none
    ∧ (HFT2.iteration s []).state.agg_rows
        = s.agg_rows
          ++ [HFT2.AggRow.mk HFT2.SYMBOL s.tick_buffer 0 0 HFT.Trend.Neutral] := by
  have hv : HFT.variance s.tick_buffer = 0 := by
    rw [hbuf]
    exact HFT.variance_replicate 30 p
  have hm : HFT.slope s.tick_buffer = 0 := by
    rw [hbuf]
    exact HFT.slope_replicate 30 p
  have hlen : s.tick_buffer.length = HFT2.TICK_BUFFER_SIZE := by
    rw [hbuf]
    simp [HFT2.TICK_BUFFER_SIZE]
  have ht : HFT.classifyTrend (0 : ℚ) = HFT.Trend.Neutral := by
    unfold HFT.classifyTrend
    rw [if_neg (by norm_num [HFT.SLOPE_THRESHOLD]),
      if_neg (by norm_num [HFT.SLOPE_THRESHOLD])]
  refine ⟨hv, hm, ?_, ?_, ?_⟩ <;>
    simp [HFT2.iteration, hlen, hv, hm, ht]

/-- C8 witness: the scenario of a window of 30 identical prices 50. -/
theorem C8_flat_window_witness :
    (HFT2.State.mk 0 (List.replicate 30 (50 : ℚ)) 0 [] []).tick_buffer
        = List.replicate 30 (50 : ℚ)
    ∧ (HFT.variance (List.replicate 30 (50 : ℚ)) = 0
      ∧ HFT.slope (List.replicate 30 (50 : ℚ)) = 0
      ∧ (HFT2.iteration (HFT2.State.mk 0 (List.replicate 30 (50 : ℚ)) 0 [] []) []).trend
          = some HFT.Trend.Neutral
      ∧ (HFT2.iteration (HFT2.State.mk 0 (List.replicate 30 (50 : ℚ)) 0 [] []) []).request
          = none
      ∧ (HFT2.iteration (HFT2.State.mk 0 (List.replicate 30 (50 : ℚ)) 0 [] []) []).state.agg_rows
          = [] ++ [HFT2.AggRow.mk HFT2.SYMBOL (List.replicate 30 (50 : ℚ)) 0 0
              HFT.Trend.Neutral]) :=
  ⟨rfl, C8_flat_window (HFT2.State.mk 0 (List.replicate 30 (50 : ℚ)) 0 [] []) 50 rfl⟩

/-- C9: the per-period decision does not depend on the retained
`previous_slope` state: two iterations that differ only in the stored
`previous_slope` produce the same trend, the same order request, and the
same buffer, logs and high-water timestamp (`previous_slope` is written but
never read). -/
theorem C9_previous_slope_noninterference (s : HFT2.State) (a b : ℚ)
    (ticks : List HFT2.Tick) :
    (HFT2.iteration { s with previous_slope := a } ticks).trend
        = (HFT2.iteration { s with previous_slope := b } ticks).trend
    ∧ (HFT2.iteration { s with previous_slope := a } ticks).request
        = (HFT2.iteration { s with previous_slope := b } ticks).request
    ∧ (HFT2.iteration { s with previous_slope := a } ticks).state.tick_buffer
        = (HFT2.iteration { s with previous_slope := b } ticks).state.tick_buffer
    ∧ (HFT2.iteration { s with previous_slope := a } ticks).state.raw_rows
        = (HFT2.iteration { s with previous_slope := b } ticks).state.raw_rows
    ∧ (HFT2.iteration { s with previous_slope := a } ticks).state.agg_rows
        = (HFT2.iteration { s with previous_slope := b } ticks).state.agg_rows
    ∧ (HFT2.iteration { s with previous_slope := a } ticks).state.latest_tick_time
        = (HFT2.iteration { s with previous_slope := b } ticks).state.latest_tick_time := by
  simp only [HFT2.iteration, HFT2.foldl_processTick_set_ps]
  by_cases h :
      (ticks.foldl HFT2.processTick s).tick_buffer.length = HFT2.TICK_BUFFER_SIZE
  · cases hc :
        HFT.classifyTrend (HFT.slope (ticks.foldl HFT2.processTick s).tick_buffer) <;>
      simp [h, hc]
  · simp [h]

/-- C10 counterexample: in `HFT_1.py`, running the startup preparation over
an existing `tick_data.csv` that already holds a data row discards that row
(the file is opened with mode `'w'`), contradicting the claim that every
variant writes the header only if the file is absent and never truncates. -/
theorem C10_counterexample :
    HFT1.prepare_tick_csv (some [HFT1.tick_header,
        ["2025-01-01", "00:00:00.000", "BTCUSD", "100.00000", "N/A", "N/A", "N/A"]])
      = [HFT1.tick_header]
    ∧ HFT1.prepare_tick_csv (some [HFT1.tick_header,
        ["2025-01-01", "00:00:00.000", "BTCUSD", "100.00000", "N/A", "N/A", "N/A"]])
      ≠ [HFT1.tick_header,
        ["2025-01-01", "00:00:00.000", "BTCUSD", "100.00000", "N/A", "N/A", "N/A"]] := by
  refine ⟨rfl, ?_⟩
  simp [HFT1.prepare_tick_csv]

/-- C10 amended: in `HFT_2.py` and `remove30_use_RawCalculatedVar.py` the
startup preparation routines write the fixed header row only if the file
does not already exist and otherwise leave the contents untouched, and all
subsequent writes are appends; in `HFT_1.py`, however, both preparation
routines unconditionally truncate the file to just the header row, so its
two logs are not append-only across process restarts. -/
theorem C10_append_only_per_variant (rows : List HFT.Row) (r : HFT.Row)
    (fs : Option (List HFT.Row)) :
    HFT2.prepare_raw_tick_csv none = [HFT2.raw_header]
    ∧ HFT2.prepare_raw_tick_csv (some rows) = rows
    ∧ HFT2.prepare_tick_csv none = [HFT2.agg_header]
    ∧ HFT2.prepare_tick_csv (some rows) = rows
    ∧ HFT2.prepare_order_csv none = [HFT1.order_header]
    ∧ HFT2.prepare_order_csv (some rows) = rows
    ∧ R30.prepare_raw_tick_csv none = [HFT2.raw_header]
    ∧ R30.prepare_raw_tick_csv (some rows) = rows
    ∧ R30.prepare_tick_csv none = [HFT2.agg_header]
    ∧ R30.prepare_tick_csv (some rows) = rows
    ∧ R30.prepare_order_csv none = [HFT1.order_header]
    ∧ R30.prepare_order_csv (some rows) = rows
    ∧ HFT.appendRow rows r = rows ++ [r]
    ∧ HFT1.prepare_tick_csv fs = [HFT1.tick_header]
    ∧ HFT1.prepare_order_csv fs = [HFT1.order_header] :=
  ⟨rfl, rfl, rfl, rfl, rfl, rfl, rfl, rfl, rfl, rfl, rfl, rfl, rfl, rfl, rfl⟩
